import Mathlib

-- Verification of the frog-buy-bot swap-notification pipeline (src/buybot.ts).
-- The file models the pure helpers of the source (escapeHtml, compact,
-- buildLogBar, tierBadge, decoding of Swap logs) and the effectful parts
-- (readTokenMeta, sendTelegram, the poll loop of main) as explicit functions
-- over oracle outcomes: an external call that may throw is passed in as an
-- Except value, and one tick of the poll loop is a function of those outcomes.

namespace BuyBot

-- JavaScript number values: the source computes on IEEE doubles and guards
-- with Number.isFinite.  Finite values are modelled exactly as rationals;
-- the three non-finite values are separate constructors.
inductive JSNum where
  | nan
  | inf
  | neginf
  | fin (q : ℚ)
deriving DecidableEq

-- Number.isFinite
def jsFinite : JSNum → Bool
  | JSNum.fin _ => true
  | _ => false

-- JavaScript comparison `a >= x` for a finite right operand x:
-- NaN compares false, +Infinity compares true, -Infinity compares false.
def jsGe (a : JSNum) (x : ℚ) : Bool :=
  match a with
  | JSNum.nan => false
  | JSNum.inf => true
  | JSNum.neginf => false
  | JSNum.fin q => decide (x ≤ q)

-- String.prototype.replaceAll with a single-character pattern, on the
-- character list of the string.
def replaceAllChar (p : Char) (r : List Char) : List Char → List Char
  | [] => []
  | c :: s => (if c = p then r else [c]) ++ replaceAllChar p r s

-- src/buybot.ts escapeHtml: four sequential replaceAll passes,
-- the ampersand first.
def escapeHtml (s : List Char) : List Char :=
  replaceAllChar '"' (("&quot;").data)
    (replaceAllChar '>' (("&gt;").data)
      (replaceAllChar '<' (("&lt;").data)
        (replaceAllChar '&' (("&amp;").data) s)))

-- Per-character effect of the four passes together (proved equal to
-- escapeHtml below).
def escChar (c : Char) : List Char :=
  if c = '&' then ("&amp;").data
  else if c = '<' then ("&lt;").data
  else if c = '>' then ("&gt;").data
  else if c = '"' then ("&quot;").data
  else [c]

def escAll : List Char → List Char
  | [] => []
  | c :: s => escChar c ++ escAll s

-- Checks that every ampersand in a character list begins one of the four
-- entities &amp; &lt; &gt; &quot; .
def ampOk : List Char → Bool
  | [] => true
  | c :: s =>
    (if c = '&' then
       (decide (s.take 4 = ("amp;").data) || decide (s.take 3 = ("lt;").data) ||
        decide (s.take 3 = ("gt;").data) || decide (s.take 5 = ("quot;").data))
     else true) && ampOk s

-- Raw args of a UniswapV2 Swap log as the source reads them: each amount may
-- be absent (the source guards with JS truthiness).
structure SwapArgs where
  amount0In : Option ℕ
  amount1In : Option ℕ
  amount0Out : Option ℕ
  amount1Out : Option ℕ
deriving DecidableEq

structure BuyEvent where
  trackedAmountRaw : ℕ
  counterAmountRaw : ℕ
deriving DecidableEq

-- src/buybot.ts main, per-log classification (lines 231-246):
--   const frogOut = frogIs0 ? amount0Out : amount1Out;
--   if (!frogOut || frogOut <= 0n) continue;            -- absent or zero: skip
--   const spentRaw = frogIs0 ? amount1In : amount0In;
--   spentHuman = spentRaw ? ... : "0"                   -- absent or zero: 0
def decodeSwap (frogIs0 : Bool) (a : SwapArgs) : Option BuyEvent :=
  match (if frogIs0 then a.amount0Out else a.amount1Out) with
  | none => none
  | some v =>
    if v = 0 then none
    else some ⟨v, (if frogIs0 then a.amount1In else a.amount0In).getD 0⟩

-- src/buybot.ts tierBadge (lines 140-147).
def tierBadge (amountFrog : JSNum) : String :=
  match amountFrog with
  | JSNum.fin q =>
    if q ≤ 0 then "💧 Splash"
    else if 50000 ≤ q then "👑 Frog King"
    else if 10000 ≤ q then "🐊 Swamp Boss"
    else if 1000 ≤ q then "🐸 Big Frog"
    else if 100 ≤ q then "🐣 Tadpole"
    else "💧 Splash"
  | _ => "💧 Splash"

-- Rank of the five badge strings in ascending tier order.
def tierRank (s : String) : ℕ :=
  if s = "👑 Frog King" then 4
  else if s = "🐊 Swamp Boss" then 3
  else if s = "🐸 Big Frog" then 2
  else if s = "🐣 Tadpole" then 1
  else 0

-- Log-bar settings of the source (lines 32-35).
def LOG_BAR_BLOCKS : ℕ := 10
def LOG_BAR_BASE : ℚ := 100

-- threshold of slot i: LOG_BAR_BASE * Math.pow(2, i)
def ladderThreshold (i : ℕ) : ℚ := LOG_BAR_BASE * 2 ^ i

-- The counting loop of buildLogBar: starting at slot i with the given fuel,
-- count consecutive earned slots, breaking at the first unearned one.
def countLadder (q : ℚ) : ℕ → ℕ → ℕ
  | 0, _ => 0
  | fuel + 1, i => if ladderThreshold i ≤ q then countLadder q fuel (i + 1) + 1 else 0

-- src/buybot.ts buildLogBar (lines 126-138), as the character list of the
-- returned string ('🟩' = BAR_FILLED, '⬜' = BAR_EMPTY).
def buildLogBar (amountFrog : JSNum) : List Char :=
  match amountFrog with
  | JSNum.fin q =>
    if q ≤ 0 then List.replicate LOG_BAR_BLOCKS '⬜'
    else
      List.replicate (countLadder q LOG_BAR_BLOCKS 0) '🟩' ++
        List.replicate (LOG_BAR_BLOCKS - countLadder q LOG_BAR_BLOCKS 0) '⬜'
  | _ => List.replicate LOG_BAR_BLOCKS '⬜'

-- Number of leading filled symbols of a bar.
def leadFilled : List Char → ℕ
  | [] => 0
  | c :: s => if c = '🟩' then leadFilled s + 1 else 0

-- The claim's characterization of the filled-slot count: k slots are earned
-- consecutively from the bottom, and no larger slot count is earned.
def earnedUpTo (a : JSNum) (k : ℕ) : Prop :=
  ∀ i, i < k → jsGe a (ladderThreshold i) = true

def IsLargestEarned (a : JSNum) (k : ℕ) : Prop :=
  earnedUpTo a k ∧ ∀ j, j ≤ LOG_BAR_BLOCKS → earnedUpTo a j → j ≤ k

-- Rendering of n/100 with exactly two decimals, as Number.prototype.toFixed(2)
-- renders its rounded result.
def pad2 (m : ℕ) : String := if m < 10 then "0" ++ toString m else toString m

def twoDecString (n : ℤ) : String :=
  (if n < 0 then "-" else "") ++ toString (n.natAbs / 100) ++ "." ++ pad2 (n.natAbs % 100)

-- Number.prototype.toFixed(2): round to the nearest hundredth, ties toward
-- the larger value, then render with two decimals.
def toFixed2 (q : ℚ) : String := twoDecString ⌊q * 100 + 1 / 2⌋

-- src/buybot.ts compact (lines 117-124).
def compact (n : JSNum) : String :=
  match n with
  | JSNum.fin q =>
    if 1000000000 ≤ |q| then toFixed2 (q / 1000000000) ++ "B"
    else if 1000000 ≤ |q| then toFixed2 (q / 1000000) ++ "M"
    else if 1000 ≤ |q| then toFixed2 (q / 1000) ++ "K"
    else toString ⌊q⌋
  | _ => ""

-- ---- poll loop (src/buybot.ts main, lines 216-291) ----

-- toBlock = head > BigInt(CONFIRMATIONS) ? head - BigInt(CONFIRMATIONS) : head
def toBlockOf (head confirmations : ℕ) : ℕ :=
  if confirmations < head then head - confirmations else head

-- The range passed to getLogs on a tick, none when the tick skips the fetch
-- (fromBlock > toBlock).
def requestedRange (confirmations cursor head : ℕ) : Option (ℕ × ℕ) :=
  if cursor + 1 ≤ toBlockOf head confirmations
  then some (cursor + 1, toBlockOf head confirmations)
  else none

-- The per-log body of the for loop: any step may throw, which aborts the
-- whole tick.  Logs are abstracted to their identity (ℕ).
def dispatchAll (step : ℕ → Except Unit Unit) : List ℕ → Except Unit Unit
  | [] => Except.ok ()
  | l :: ls =>
    match step l with
    | Except.error e => Except.error e
    | Except.ok _ => dispatchAll step ls

-- One tick of the while(true) loop: the value of lastProcessed afterwards.
-- fetch models client.getLogs (may throw), step models the per-log body.
-- The try/catch around the whole tick leaves the cursor unchanged on any
-- thrown error; lastProcessed = toBlock runs only after the loop finished.
def tick (confirmations cursor head : ℕ) (fetch : ℕ → ℕ → Except Unit (List ℕ))
    (step : ℕ → Except Unit Unit) : ℕ :=
  if cursor + 1 ≤ toBlockOf head confirmations then
    match fetch (cursor + 1) (toBlockOf head confirmations) with
    | Except.error _ => cursor
    | Except.ok logs =>
      match dispatchAll step logs with
      | Except.error _ => cursor
      | Except.ok _ => toBlockOf head confirmations
  else cursor

-- ---- delivery (src/buybot.ts sendTelegram, lines 92-109) ----

-- Outcome of the fetch to the Telegram API on one send.
inductive SendOutcome where
  | ok
  | httpError
  | reject
deriving DecidableEq

-- sendTelegram: a resolved fetch with !r.ok only logs (the error is
-- swallowed); a rejected fetch (sink unreachable) propagates as a thrown
-- error, since the function has no try/catch.
def sendTelegram (r : SendOutcome) : Except Unit Unit :=
  match r with
  | SendOutcome.reject => Except.error ()
  | SendOutcome.httpError => Except.ok ()
  | SendOutcome.ok => Except.ok ()

-- The dispatch loop of main with the send outcomes made explicit: returns
-- the logs whose send was attempted, and whether the batch completed.
def processLogs (send : ℕ → SendOutcome) : List ℕ → List ℕ × Except Unit Unit
  | [] => ([], Except.ok ())
  | l :: ls =>
    match sendTelegram (send l) with
    | Except.error e => ([l], Except.error e)
    | Except.ok _ =>
      ((l :: (processLogs send ls).1), (processLogs send ls).2)

-- One tick whose per-log work is exactly one delivery per log: the cursor
-- afterwards and the list of logs whose delivery was attempted.
def tickDeliver (confirmations cursor head : ℕ) (logs : List ℕ)
    (send : ℕ → SendOutcome) : ℕ × List ℕ :=
  if cursor + 1 ≤ toBlockOf head confirmations then
    match (processLogs send logs).2 with
    | Except.error _ => (cursor, (processLogs send logs).1)
    | Except.ok _ => (toBlockOf head confirmations, (processLogs send logs).1)
  else (cursor, [])

-- ---- token metadata ----

def orElseDefault {α : Type} (d : α) : Except Unit α → α
  | Except.ok x => x
  | Except.error _ => d

-- src/buybot.ts readTokenMeta (lines 149-161): both lookups carry a .catch
-- substituting the default, so resolution always produces a value.
def readTokenMeta (decimalsResult : Except Unit ℕ) (symbolResult : Except Unit String) :
    ℕ × String :=
  (orElseDefault 18 decimalsResult, orElseDefault ("TOKEN") symbolResult)

-- The startup metadata reads of the second variant of main (lines 479-493):
-- the decimals read has no .catch, so its failure propagates out of main;
-- the symbol read defaults to "FROG".
def startupTokenMeta (decimalsResult : Except Unit ℕ) (symbolResult : Except Unit String) :
    Except Unit (ℕ × String) :=
  match decimalsResult with
  | Except.error e => Except.error e
  | Except.ok d => Except.ok (d, orElseDefault ("FROG") symbolResult)

-- ---- magnitude-indicator strategies ----

-- Modelled from the spec: the source under src contains only the
-- doubling-ladder indicator (buildLogBar); the linear-meter strategy and the
-- configuration switch between the two strategies described in spec §4.2
-- ("two supported strategies, selectable by configuration: (a) linear meter:
-- one unit per configured step size, capped at a configured maximum unit
-- count, empty sequence if amount < one step") are not present in src.
inductive IndicatorStrategy where
  | linear (step : ℚ) (cap : ℕ)
  | ladder

-- Modelled from the spec: linear meter, one unit per step, capped.
def linearMeter (step : ℚ) (cap : ℕ) (amount : ℚ) : List Char :=
  List.replicate (min cap ⌊amount / step⌋.toNat) '🟩'

-- Modelled from the spec: the configuration-selected indicator.
def magnitudeIndicator (strategy : IndicatorStrategy) (a : JSNum) : List Char :=
  match strategy, a with
  | IndicatorStrategy.linear step cap, JSNum.fin q => linearMeter step cap q
  | IndicatorStrategy.linear _ _, _ => []
  | IndicatorStrategy.ladder, b => buildLogBar b

-- ---- theorems ----

-- escapeHtml distributes over append (each replaceAll pass does).
theorem replaceAllChar_append (p : Char) (r : List Char) :
    ∀ a b : List Char,
      replaceAllChar p r (a ++ b) = replaceAllChar p r a ++ replaceAllChar p r b := by
  intro a b
  induction a with
  | nil => simp [replaceAllChar]
  | cons c s ih => simp [replaceAllChar, ih]

theorem escapeHtml_append (a b : List Char) :
    escapeHtml (a ++ b) = escapeHtml a ++ escapeHtml b := by
  simp [escapeHtml, replaceAllChar_append]

theorem escapeHtml_single (c : Char) : escapeHtml [c] = escChar c := by
  by_cases h1 : c = '&'
  · subst h1; rfl
  · by_cases h2 : c = '<'
    · subst h2; rfl
    · by_cases h3 : c = '>'
      · subst h3; rfl
      · by_cases h4 : c = '"'
        · subst h4; rfl
        · simp [escapeHtml, replaceAllChar, escChar, h1, h2, h3, h4]

theorem escapeHtml_eq_escAll : ∀ s : List Char, escapeHtml s = escAll s := by
  intro s
  induction s with
  | nil => rfl
  | cons c s ih =>
    have hcons : c :: s = [c] ++ s := rfl
    rw [hcons, escapeHtml_append, escapeHtml_single, ih]
    rfl

theorem escChar_no_markup (c : Char) :
    '<' ∉ escChar c ∧ '>' ∉ escChar c ∧ ('"') ∉ escChar c := by
  unfold escChar
  split_ifs with h1 h2 h3 h4
  · decide
  · decide
  · decide
  · decide
  · exact ⟨fun h => h2 (List.mem_singleton.mp h).symm,
           fun h => h3 (List.mem_singleton.mp h).symm,
           fun h => h4 (List.mem_singleton.mp h).symm⟩

theorem escAll_no_markup (s : List Char) :
    '<' ∉ escAll s ∧ '>' ∉ escAll s ∧ ('"') ∉ escAll s := by
  induction s with
  | nil => simp [escAll]
  | cons c t ih =>
    have hc := escChar_no_markup c
    simp only [escAll, List.mem_append]
    exact ⟨fun h => h.elim (fun h => hc.1 h) (fun h => ih.1 h),
           fun h => h.elim (fun h => hc.2.1 h) (fun h => ih.2.1 h),
           fun h => h.elim (fun h => hc.2.2 h) (fun h => ih.2.2 h)⟩

theorem ampOk_escAll (s : List Char) : ampOk (escAll s) = true := by
  induction s with
  | nil => rfl
  | cons c t ih =>
    by_cases h1 : c = '&'
    · subst h1
      simp only [escAll, escChar]
      simp [ampOk, ih]
    · by_cases h2 : c = '<'
      · subst h2
        simp only [escAll, escChar]
        simp [ampOk, ih]
      · by_cases h3 : c = '>'
        · subst h3
          simp only [escAll, escChar]
          simp [ampOk, ih]
        · by_cases h4 : c = '"'
          · subst h4
            simp only [escAll, escChar]
            simp [ampOk, ih]
          · simp only [escAll, escChar, h1, h2, h3, h4, if_false]
            simp [ampOk, h1, ih]

/-- C10: for every input string, the output of escapeHtml contains none of
the characters <, >, " and every ampersand in it begins one of the entities
&amp; &lt; &gt; &quot; — interpolating free text through escapeHtml cannot
introduce HTML markup. -/
theorem escapeHtml_injects_no_markup :
    ∀ s : List Char,
      ('<' ∉ escapeHtml s ∧ '>' ∉ escapeHtml s ∧ ('"') ∉ escapeHtml s) ∧
        ampOk (escapeHtml s) = true := by
  intro s
  rw [escapeHtml_eq_escAll]
  exact ⟨escAll_no_markup s, ampOk_escAll s⟩

/-- Witness for C10 at the concrete input a<b&"c". -/
theorem escapeHtml_injects_no_markup_witness :
    ('<' ∉ escapeHtml (("a<b&\"c").data) ∧ '>' ∉ escapeHtml (("a<b&\"c").data) ∧
        ('"') ∉ escapeHtml (("a<b&\"c").data)) ∧
      ampOk (escapeHtml (("a<b&\"c").data)) = true :=
  escapeHtml_injects_no_markup (("a<b&\"c").data)

/-- C3: with trackedIsFirstSlot=true, a raw swap is classified as a buy iff
amount0Out is present and strictly positive; then trackedAmountRaw is
amount0Out and counterAmountRaw is amount1In defaulted to 0 when absent;
when amount0Out is absent or zero nothing is emitted; and symmetrically with
the slots swapped when trackedIsFirstSlot=false. -/
theorem decodeSwap_buy_iff :
    ∀ a : SwapArgs,
      (∀ e : BuyEvent, decodeSwap true a = some e ↔
          ∃ v, a.amount0Out = some v ∧ 0 < v ∧ e = ⟨v, a.amount1In.getD 0⟩) ∧
      (decodeSwap true a = none ↔ a.amount0Out = none ∨ a.amount0Out = some 0) ∧
      (∀ e : BuyEvent, decodeSwap false a = some e ↔
          ∃ v, a.amount1Out = some v ∧ 0 < v ∧ e = ⟨v, a.amount0In.getD 0⟩) ∧
      (decodeSwap false a = none ↔ a.amount1Out = none ∨ a.amount1Out = some 0) := by
  intro a
  refine ⟨fun e => ?_, ?_, fun e => ?_, ?_⟩ <;>
    rcases a with ⟨a0i, a1i, a0o, a1o⟩
  · cases a0o with
    | none => simp [decodeSwap]
    | some v =>
      rcases e with ⟨t, cnt⟩
      by_cases hv : v = 0 <;>
        simp [decodeSwap, hv, Nat.pos_iff_ne_zero, eq_comm, and_assoc]
  · cases a0o with
    | none => simp [decodeSwap]
    | some v => by_cases hv : v = 0 <;> simp [decodeSwap, hv]
  · cases a1o with
    | none => simp [decodeSwap]
    | some v =>
      rcases e with ⟨t, cnt⟩
      by_cases hv : v = 0 <;>
        simp [decodeSwap, hv, Nat.pos_iff_ne_zero, eq_comm, and_assoc]
  · cases a1o with
    | none => simp [decodeSwap]
    | some v => by_cases hv : v = 0 <;> simp [decodeSwap, hv]

/-- Witness for C3: the spec's example record (amount0In=0, amount1In=10,
amount0Out=500, amount1Out=0) with the tracked token in the first slot is a
buy with trackedAmountRaw=500 and counterAmountRaw=10. -/
theorem decodeSwap_buy_iff_witness :
    decodeSwap true ⟨some 0, some 10, some 500, some 0⟩ = some ⟨500, 10⟩ :=
  ((decodeSwap_buy_iff ⟨some 0, some 10, some 500, some 0⟩).1 ⟨500, 10⟩).mpr
    ⟨500, rfl, by decide, rfl⟩

/-- C2 counterexample: at head=2 with confirmation depth 2 (the hardcoded
CONFIRMATIONS), the clamp `head > confirmations ? head - confirmations :
head` yields toBlock = 2, which exceeds head − confirmations = 0 — the claim
fails for head values not above the confirmation depth. -/
theorem toBlockOf_genesis_counterexample :
    toBlockOf 2 2 = 2 ∧ ¬ ((toBlockOf 2 2 : ℤ) ≤ (2 : ℤ) - (2 : ℤ)) := by
  refine ⟨by decide, ?_⟩
  intro h
  norm_num [toBlockOf] at h

/-- C2 amended: whenever head is strictly greater than the confirmation
depth, the computed toBlock never exceeds head − confirmations; the clamp
branch (head ≤ confirmations, where toBlock = head) is the only exception. -/
theorem toBlockOf_confirmation_lag (head confirmations : ℕ)
    (h : confirmations < head) :
    (toBlockOf head confirmations : ℤ) ≤ (head : ℤ) - (confirmations : ℤ) := by
  unfold toBlockOf
  rw [if_pos h, Nat.cast_sub (le_of_lt h)]

/-- Witness for the amended C2 at head=1000, confirmations=2. -/
theorem toBlockOf_confirmation_lag_witness :
    (toBlockOf 1000 2 : ℤ) ≤ (1000 : ℤ) - (2 : ℤ) :=
  toBlockOf_confirmation_lag 1000 2 (by decide)

/-- C1: with head=1000, confirmations=2, cursor=990 the tick requests exactly
the range [991, 998]; the cursor becomes 998 exactly when the fetch and every
per-log step succeed; if the fetch or any per-log step throws, the cursor is
left at 990 and the next tick requests the same range [991, 998] again. -/
theorem tick_atomic_cursor :
    requestedRange 2 990 1000 = some (991, 998) ∧
    (∀ (fetch : ℕ → ℕ → Except Unit (List ℕ)) (step : ℕ → Except Unit Unit)
        (logs : List ℕ), fetch 991 998 = Except.ok logs →
        dispatchAll step logs = Except.ok () → tick 2 990 1000 fetch step = 998) ∧
    (∀ (fetch : ℕ → ℕ → Except Unit (List ℕ)) (step : ℕ → Except Unit Unit),
        fetch 991 998 = Except.error () →
        tick 2 990 1000 fetch step = 990 ∧
        requestedRange 2 (tick 2 990 1000 fetch step) 1000 = some (991, 998)) ∧
    (∀ (fetch : ℕ → ℕ → Except Unit (List ℕ)) (step : ℕ → Except Unit Unit)
        (logs : List ℕ), fetch 991 998 = Except.ok logs →
        dispatchAll step logs = Except.error () →
        tick 2 990 1000 fetch step = 990 ∧
        requestedRange 2 (tick 2 990 1000 fetch step) 1000 = some (991, 998)) := by
  have ht : toBlockOf 1000 2 = 998 := by decide
  refine ⟨by decide, ?_, ?_, ?_⟩
  · intro fetch step logs hf hd
    simp only [tick, ht]
    norm_num [hf, hd]
  · intro fetch step hf
    have hc : tick 2 990 1000 fetch step = 990 := by
      simp only [tick, ht]
      norm_num [hf]
    exact ⟨hc, by rw [hc]; decide⟩
  · intro fetch step logs hf hd
    have hc : tick 2 990 1000 fetch step = 990 := by
      simp only [tick, ht]
      norm_num [hf, hd]
    exact ⟨hc, by rw [hc]; decide⟩

/-- Witness for C1: a successful empty batch advances the cursor to 998. -/
theorem tick_atomic_cursor_witness :
    tick 2 990 1000 (fun _ _ => Except.ok []) (fun _ => Except.ok ()) = 998 :=
  tick_atomic_cursor.2.1 (fun _ _ => Except.ok []) (fun _ => Except.ok ()) [] rfl rfl

-- The badge's rank as a function of the amount, mirroring the threshold
-- cascade of tierBadge.
theorem tierRank_tierBadge (q : ℚ) :
    tierRank (tierBadge (JSNum.fin q)) =
      if q ≤ 0 then 0
      else if 50000 ≤ q then 4
      else if 10000 ≤ q then 3
      else if 1000 ≤ q then 2
      else if 100 ≤ q then 1
      else 0 := by
  simp only [tierBadge]
  split_ifs <;> rfl

/-- C4: the tier badge is monotone in the amount; each threshold is an
inclusive lower bound evaluated from highest to lowest, so an amount exactly
equal to 100, 1000, 10000 or 50000 receives the higher tier; non-finite or
non-positive input always yields the lowest tier. -/
theorem tierBadge_monotone_thresholds :
    (∀ a b : ℚ, 0 ≤ a → a ≤ b →
        tierRank (tierBadge (JSNum.fin a)) ≤ tierRank (tierBadge (JSNum.fin b))) ∧
    tierBadge (JSNum.fin 100) = "🐣 Tadpole" ∧
    tierBadge (JSNum.fin 1000) = "🐸 Big Frog" ∧
    tierBadge (JSNum.fin 10000) = "🐊 Swamp Boss" ∧
    tierBadge (JSNum.fin 50000) = "👑 Frog King" ∧
    (∀ x : JSNum, jsFinite x = false → tierBadge x = "💧 Splash") ∧
    (∀ q : ℚ, q ≤ 0 → tierBadge (JSNum.fin q) = "💧 Splash") := by
  refine ⟨?_, by decide, by decide, by decide, by decide, ?_, ?_⟩
  · intro a b ha hab
    rw [tierRank_tierBadge, tierRank_tierBadge]
    split_ifs <;> first | omega | linarith
  · intro x hx
    cases x with
    | nan => rfl
    | inf => rfl
    | neginf => rfl
    | fin q => simp [jsFinite] at hx
  · intro q h
    simp [tierBadge, h]

/-- Witness for C4 at a=50, b=200: Splash ranks no higher than Tadpole. -/
theorem tierBadge_monotone_thresholds_witness :
    tierRank (tierBadge (JSNum.fin 50)) ≤ tierRank (tierBadge (JSNum.fin 200)) :=
  tierBadge_monotone_thresholds.1 50 200 (by decide) (by decide)

-- The break-on-first-unearned loop fills at most `fuel` slots.
theorem countLadder_le (q : ℚ) : ∀ fuel i, countLadder q fuel i ≤ fuel := by
  intro fuel
  induction fuel with
  | zero => intro i; simp [countLadder]
  | succ n ih =>
    intro i
    simp only [countLadder]
    split_ifs with h
    · exact Nat.succ_le_succ (ih (i + 1))
    · exact Nat.zero_le _

-- Every slot before the loop's stopping point is earned.
theorem countLadder_earned (q : ℚ) :
    ∀ fuel i j, j < countLadder q fuel i → ladderThreshold (i + j) ≤ q := by
  intro fuel
  induction fuel with
  | zero => intro i j h; simp [countLadder] at h
  | succ n ih =>
    intro i j h
    simp only [countLadder] at h
    split_ifs at h with hth
    · cases j with
      | zero => simpa using hth
      | succ j' =>
        have hrec := ih (i + 1) j' (Nat.lt_of_succ_lt_succ h)
        have harith : i + 1 + j' = i + (j' + 1) := by omega
        rwa [harith] at hrec
    · omega

-- The slot at which the loop stopped (when it stopped early) is unearned.
theorem countLadder_stop (q : ℚ) :
    ∀ fuel i, countLadder q fuel i < fuel →
      ¬ ladderThreshold (i + countLadder q fuel i) ≤ q := by
  intro fuel
  induction fuel with
  | zero => intro i h; omega
  | succ n ih =>
    intro i h
    by_cases hth : ladderThreshold i ≤ q
    · have hc : countLadder q (n + 1) i = countLadder q n (i + 1) + 1 := by
        simp [countLadder, hth]
      rw [hc] at h ⊢
      have hrec := ih (i + 1) (Nat.lt_of_succ_lt_succ h)
      have harith : i + 1 + countLadder q n (i + 1) = i + (countLadder q n (i + 1) + 1) := by
        omega
      rwa [harith] at hrec
    · have hc : countLadder q (n + 1) i = 0 := by simp [countLadder, hth]
      rw [hc]
      simpa using hth

-- Counting the leading filled symbols of a prefix-filled bar recovers the
-- fill count.
theorem leadFilled_bar (k m : ℕ) :
    leadFilled (List.replicate k '🟩' ++ List.replicate m '⬜') = k := by
  induction k with
  | zero =>
    cases m with
    | zero => rfl
    | succ m' => simp [List.replicate_succ, leadFilled]
  | succ k' ih => simp [List.replicate_succ, leadFilled, ih]

-- When the bottom threshold itself is unearned, zero filled slots is the
-- largest earned count.
theorem largest_empty_of_not_ge (a : JSNum) (h : jsGe a (ladderThreshold 0) = false) :
    IsLargestEarned a 0 := by
  refine ⟨fun i hi => absurd hi (Nat.not_lt_zero i), fun j hj hearn => ?_⟩
  by_contra hjpos
  have hj0 : 0 < j := by omega
  have htrue := hearn 0 hj0
  rw [h] at htrue
  exact Bool.false_ne_true htrue

/-- C5 counterexample: at the concrete input +Infinity the bar is entirely
empty although under the JavaScript comparison Infinity ≥ threshold every one
of the 10 slots is earned, so the number of filled slots (0) is not the
largest k with every slot below k earned — the claim fails for non-finite
positive input. -/
theorem buildLogBar_inf_counterexample :
    buildLogBar JSNum.inf = List.replicate LOG_BAR_BLOCKS '⬜' ∧
    (∀ i, i < LOG_BAR_BLOCKS → jsGe JSNum.inf (ladderThreshold i) = true) ∧
    ¬ IsLargestEarned JSNum.inf (leadFilled (buildLogBar JSNum.inf)) := by
  refine ⟨by decide, fun i _ => rfl, ?_⟩
  intro h
  have h1 := h.2 1 (by decide) (fun i _ => rfl)
  have h0 : leadFilled (buildLogBar JSNum.inf) = 0 := by decide
  rw [h0] at h1
  exact Nat.not_succ_le_zero 0 h1

/-- C5 amended: for every input the bar has exactly the configured 10 symbols
and is a prefix of filled symbols followed by empty ones; and for every input
other than +Infinity (where the non-finite guard empties the bar even though
the JS comparison earns every slot) the number of filled slots is the largest
k such that the amount is ≥ base·2^i for every i < k. -/
theorem buildLogBar_prefix_shape :
    ∀ a : JSNum,
      (buildLogBar a).length = LOG_BAR_BLOCKS ∧
      (∃ k, k ≤ LOG_BAR_BLOCKS ∧
          buildLogBar a =
            List.replicate k '🟩' ++ List.replicate (LOG_BAR_BLOCKS - k) '⬜') ∧
      (a ≠ JSNum.inf → IsLargestEarned a (leadFilled (buildLogBar a))) := by
  have hth0 : ladderThreshold 0 = 100 := by norm_num [ladderThreshold, LOG_BAR_BASE]
  intro a
  cases a with
  | nan =>
    refine ⟨by decide, ⟨0, by decide, by decide⟩, fun _ => ?_⟩
    have h0 : leadFilled (buildLogBar JSNum.nan) = 0 := by decide
    rw [h0]
    exact largest_empty_of_not_ge JSNum.nan rfl
  | inf =>
    exact ⟨by decide, ⟨0, by decide, by decide⟩, fun h => absurd rfl h⟩
  | neginf =>
    refine ⟨by decide, ⟨0, by decide, by decide⟩, fun _ => ?_⟩
    have h0 : leadFilled (buildLogBar JSNum.neginf) = 0 := by decide
    rw [h0]
    exact largest_empty_of_not_ge JSNum.neginf rfl
  | fin q =>
    by_cases hq : q ≤ 0
    · have hbar : buildLogBar (JSNum.fin q) = List.replicate LOG_BAR_BLOCKS '⬜' := by
        simp [buildLogBar, hq]
      have h0 : leadFilled (buildLogBar (JSNum.fin q)) = 0 := by
        rw [hbar]; decide
      refine ⟨by rw [hbar]; decide, ⟨0, by decide, by rw [hbar]; decide⟩, fun _ => ?_⟩
      rw [h0]
      refine largest_empty_of_not_ge (JSNum.fin q) ?_
      have hnot : ¬ ladderThreshold 0 ≤ q := by rw [hth0]; linarith
      simp [jsGe, hnot]
    · obtain ⟨k, hk⟩ : ∃ k, countLadder q LOG_BAR_BLOCKS 0 = k := ⟨_, rfl⟩
      have hkle : k ≤ LOG_BAR_BLOCKS := hk ▸ countLadder_le q LOG_BAR_BLOCKS 0
      have hbar : buildLogBar (JSNum.fin q) =
          List.replicate k '🟩' ++ List.replicate (LOG_BAR_BLOCKS - k) '⬜' := by
        simp [buildLogBar, hq, hk]
      have hlead : leadFilled (buildLogBar (JSNum.fin q)) = k := by
        rw [hbar, leadFilled_bar]
      refine ⟨?_, ⟨k, hkle, hbar⟩, fun _ => ?_⟩
      · rw [hbar]
        simp only [List.length_append, List.length_replicate]
        omega
      · rw [hlead]
        constructor
        · intro i hi
          have hearned := countLadder_earned q LOG_BAR_BLOCKS 0 i (by omega)
          rw [Nat.zero_add] at hearned
          simp [jsGe, hearned]
        · intro j hj hearn
          by_contra hgt
          have hklt : k < LOG_BAR_BLOCKS := by omega
          have hstop := countLadder_stop q LOG_BAR_BLOCKS 0 (by omega)
          rw [Nat.zero_add, hk] at hstop
          have htrue := hearn k (by omega)
          simp only [jsGe, decide_eq_true_eq] at htrue
          exact hstop htrue

/-- Witness for the amended C5 at the finite input 500: the bar is the
10-symbol prefix-filled shape and its fill count is the largest earned k. -/
theorem buildLogBar_prefix_shape_witness :
    (buildLogBar (JSNum.fin 500)).length = LOG_BAR_BLOCKS ∧
    (∃ k, k ≤ LOG_BAR_BLOCKS ∧
        buildLogBar (JSNum.fin 500) =
          List.replicate k '🟩' ++ List.replicate (LOG_BAR_BLOCKS - k) '⬜') ∧
    (JSNum.fin 500 ≠ JSNum.inf →
        IsLargestEarned (JSNum.fin 500) (leadFilled (buildLogBar (JSNum.fin 500)))) :=
  buildLogBar_prefix_shape (JSNum.fin 500)

/-- C9: compact abbreviates with K/M/B suffixes at two-decimal precision for
magnitudes at least 1000 (1500 ↦ "1.50K", 2300000 ↦ "2.30M"), truncates to an
integer rendering below 1000 (0 ↦ "0"), and returns the empty string for
every non-finite input. -/
theorem compact_abbreviation :
    compact (JSNum.fin 1500) = "1.50K" ∧
    compact (JSNum.fin 2300000) = "2.30M" ∧
    compact (JSNum.fin 0) = "0" ∧
    (∀ x : JSNum, jsFinite x = false → compact x = "") ∧
    (∀ q : ℚ, |q| < 1000 → compact (JSNum.fin q) = toString ⌊q⌋) ∧
    (∀ q : ℚ, 1000 ≤ |q| → |q| < 1000000 →
        compact (JSNum.fin q) = toFixed2 (q / 1000) ++ "K") ∧
    (∀ q : ℚ, 1000000 ≤ |q| → |q| < 1000000000 →
        compact (JSNum.fin q) = toFixed2 (q / 1000000) ++ "M") ∧
    (∀ q : ℚ, 1000000000 ≤ |q| →
        compact (JSNum.fin q) = toFixed2 (q / 1000000000) ++ "B") := by
  refine ⟨?_, ?_, ?_, ?_, ?_, ?_, ?_, ?_⟩
  · have hfl : (⌊(1500 : ℚ) / 1000 * 100 + 1 / 2⌋ : ℤ) = 150 := by norm_num
    simp only [compact, toFixed2, hfl]
    norm_num
    decide
  · have hfl : (⌊(2300000 : ℚ) / 1000000 * 100 + 1 / 2⌋ : ℤ) = 230 := by norm_num
    simp only [compact, toFixed2, hfl]
    norm_num
    decide
  · have hfl : (⌊(0 : ℚ)⌋ : ℤ) = 0 := by norm_num
    simp only [compact, hfl]
    norm_num
    decide
  · intro x hx
    cases x with
    | nan => rfl
    | inf => rfl
    | neginf => rfl
    | fin q => simp [jsFinite] at hx
  · intro q h
    simp only [compact]
    rw [if_neg (by linarith), if_neg (by linarith), if_neg (by linarith)]
  · intro q h1 h2
    simp only [compact]
    rw [if_neg (by linarith), if_neg (by linarith), if_pos h1]
  · intro q h1 h2
    simp only [compact]
    rw [if_neg (by linarith), if_pos h1]
  · intro q h1
    simp only [compact]
    rw [if_pos h1]

/-- Witness for C9: the non-finite input NaN yields the empty label. -/
theorem compact_abbreviation_witness : compact JSNum.nan = "" :=
  compact_abbreviation.2.2.2.1 JSNum.nan rfl

/-- C7 counterexample: in the startup metadata reads of the second variant of
main (src lines 479-493), a failed decimals lookup is not replaced by a
default — it propagates out of main, so the process terminates via
main().catch and process.exit(1) — and a failed symbol lookup is replaced by
"FROG", not by the documented "TOKEN". -/
theorem startupTokenMeta_counterexample :
    startupTokenMeta (Except.error ()) (Except.ok ("SYM")) = Except.error () ∧
    startupTokenMeta (Except.ok 18) (Except.error ()) = Except.ok (18, "FROG") :=
  ⟨rfl, rfl⟩

/-- C7 amended: readTokenMeta (used by the first variant for both tokens)
substitutes the defaults decimalPlaces=18 and symbol="TOKEN" on lookup
failure and always produces a value, so a metadata failure there never
terminates the process; in the second variant only the symbol lookup recovers
(with default "FROG"), while a failed decimals lookup propagates out of
startup before the poll loop is entered. -/
theorem readTokenMeta_defaults :
    (∀ s, (readTokenMeta (Except.error ()) s).1 = 18) ∧
    (∀ d, (readTokenMeta d (Except.error ())).2 = "TOKEN") ∧
    readTokenMeta (Except.error ()) (Except.error ()) = (18, "TOKEN") ∧
    (∀ s, startupTokenMeta (Except.error ()) s = Except.error ()) ∧
    (∀ d, startupTokenMeta (Except.ok d) (Except.error ()) = Except.ok (d, "FROG")) :=
  ⟨fun _ => rfl, fun d => by cases d <;> rfl, rfl, fun _ => rfl, fun _ => rfl⟩

-- A batch none of whose deliveries throws is dispatched in full.
theorem processLogs_complete (send : ℕ → SendOutcome) :
    ∀ logs : List ℕ, (∀ l, l ∈ logs → send l ≠ SendOutcome.reject) →
      processLogs send logs = (logs, Except.ok ()) := by
  intro logs
  induction logs with
  | nil => intro _; rfl
  | cons l ls ih =>
    intro h
    have hl : send l ≠ SendOutcome.reject := h l (by simp)
    have hrest := ih fun x hx => h x (by simp [hx])
    cases hsl : send l with
    | reject => exact absurd hsl hl
    | ok => simp [processLogs, sendTelegram, hsl, hrest]
    | httpError => simp [processLogs, sendTelegram, hsl, hrest]

/-- C8 counterexample: with head=1000, cursor=990 and a batch of two logs
whose first delivery's fetch rejects (sink unreachable), the second log's
delivery is never attempted and the cursor stays at 990 although toBlock is
998 — a failed delivery does prevent the remaining events of the batch from
being dispatched in that tick. -/
theorem delivery_reject_counterexample :
    (tickDeliver 2 990 1000 [0, 1]
        (fun l => if l = 0 then SendOutcome.reject else SendOutcome.ok)).1 = 990 ∧
    1 ∉ (tickDeliver 2 990 1000 [0, 1]
        (fun l => if l = 0 then SendOutcome.reject else SendOutcome.ok)).2 := by
  decide

/-- C8 amended: an HTTP-level rejection (resolved response with !r.ok) is
reported and swallowed — it affects neither the cursor nor the remaining
events, and any batch free of thrown sends is dispatched in full and advances
the cursor; but an unreachable sink (the send's fetch rejects) aborts the
tick: the cursor is left unchanged, so the whole range is retried next tick. -/
theorem delivery_failure_semantics :
    (∀ r, r ≠ SendOutcome.reject → sendTelegram r = Except.ok ()) ∧
    sendTelegram SendOutcome.httpError = Except.ok () ∧
    (∀ (send : ℕ → SendOutcome) (logs : List ℕ),
        (∀ l, l ∈ logs → send l ≠ SendOutcome.reject) →
        processLogs send logs = (logs, Except.ok ())) ∧
    (∀ (send : ℕ → SendOutcome) (logs : List ℕ),
        (∀ l, l ∈ logs → send l ≠ SendOutcome.reject) →
        (tickDeliver 2 990 1000 logs send).1 = 998) ∧
    (∀ (send : ℕ → SendOutcome) (logs : List ℕ),
        (processLogs send logs).2 = Except.error () →
        (tickDeliver 2 990 1000 logs send).1 = 990) := by
  refine ⟨?_, rfl, processLogs_complete, ?_, ?_⟩
  · intro r h
    cases r with
    | reject => exact absurd rfl h
    | ok => rfl
    | httpError => rfl
  · intro send logs h
    have hcomplete := processLogs_complete send logs h
    simp only [tickDeliver]
    rw [if_pos (by decide), hcomplete]
    show toBlockOf 1000 2 = 998
    decide
  · intro send logs herr
    simp only [tickDeliver]
    rw [if_pos (by decide), herr]

/-- Witness for the amended C8: a two-log batch whose deliveries both get
HTTP-level rejections still advances the cursor to 998. -/
theorem delivery_failure_semantics_witness :
    (tickDeliver 2 990 1000 [0, 1] (fun _ => SendOutcome.httpError)).1 = 998 :=
  delivery_failure_semantics.2.2.2.1 (fun _ => SendOutcome.httpError) [0, 1]
    (fun _ _ h => SendOutcome.noConfusion h)

/-- C6 (modelled from the spec; the linear-meter strategy is absent from
src): the linear meter's unit count is min(cap, floor(amount / step)) and is
0 whenever the amount is below one step. -/
theorem linearMeter_count :
    (∀ (step : ℚ) (cap : ℕ) (q : ℚ),
        (magnitudeIndicator (IndicatorStrategy.linear step cap) (JSNum.fin q)).length
          = min cap ⌊q / step⌋.toNat) ∧
    (∀ (step : ℚ) (cap : ℕ) (q : ℚ), 0 < step → 0 ≤ q → q < step →
        (magnitudeIndicator (IndicatorStrategy.linear step cap) (JSNum.fin q)).length
          = 0) := by
  constructor
  · intro step cap q
    simp [magnitudeIndicator, linearMeter]
  · intro step cap q hstep hq hlt
    have hfloor : (⌊q / step⌋ : ℤ) = 0 := by
      rw [Int.floor_eq_zero_iff]
      exact ⟨div_nonneg hq (le_of_lt hstep), (div_lt_one hstep).mpr hlt⟩
    simp [magnitudeIndicator, linearMeter, hfloor]

/-- Witness for C6 at step=2, cap=5, amount=1: one step is not reached, so
the meter is empty. -/
theorem linearMeter_count_witness :
    (magnitudeIndicator (IndicatorStrategy.linear 2 5) (JSNum.fin 1)).length = 0 :=
  linearMeter_count.2 2 5 1 (by decide) (by decide) (by decide)

end BuyBot
